import Mathlib

/-!
Verification of the real-time transport and clock-synchronization subsystem
of the countdown application.

The embedding below follows the TypeScript sources:
- `src/frontend/src/app/services/websocket.service.ts` (WebSocketService)
- `src/frontend/src/app/services/time-sync.service.ts` (TimeSyncService)
- `src/frontend/src/app/services/reaction.service.ts` (ReactionService)
- `src/frontend/src/app/services/greeting.service.ts` (GreetingService)

Stateful code is embedded as explicit state records plus step functions over
an event alphabet; the JavaScript runtime is single-threaded, so an execution
is a sequence of handler invocations (a trace of events).
-/

namespace Nye

/-! ## WebSocketService: data model

`RpcResponse` mirrors the `RpcResponse` interface: an `id`, an optional
`error` object with `code`/`message`, and an opaque `result` payload.
`JsError` mirrors a JavaScript `Error` object built by `new Error(msg)`:
it carries only a message string. -/

structure RpcError where
  code : Int
  message : String
deriving DecidableEq, Repr

structure RpcResponse where
  id : Nat
  error : Option RpcError
  result : String
deriving DecidableEq, Repr

structure JsError where
  message : String
deriving DecidableEq, Repr

/-- How a pending request's promise settles: `resolve(result)` or
`reject(error)`. -/
inductive Settlement where
  | resolved (result : String)
  | rejected (e : JsError)
deriving DecidableEq, Repr

/-- `handle_message`, response branch: `if ('error' in message && message.error)
pending.reject(new Error(message.error.message)) else
pending.resolve(message.result)`. -/
def outcomeOfResponse (r : RpcResponse) : Settlement :=
  match r.error with
  | some e => .rejected ⟨e.message⟩
  | none => .resolved r.result

/-- The error built in `call`'s timeout handler:
`new Error(\x7bbacktick\x7dRPC timeout for method: $\x7bmethod\x7d)`. -/
def timeoutJsError (method : String) : JsError :=
  ⟨"RPC timeout for method: " ++ method⟩

/-- The error built in `reject_pending_requests`:
`new Error('WebSocket disconnected')`. -/
def disconnectedJsError : JsError :=
  ⟨"WebSocket disconnected"⟩

/-- State of a `WebSocketService` instance:
`request_id` is the id counter (`private request_id = 0`), `connOpen` models
`this.ws !== null && this.ws.readyState === WebSocket.OPEN`, `pending` models
the `pending_requests` map as an association list from request id to the
method name captured by that request's timeout closure, and `log` records, in
order, every settlement (resolve or reject) delivered to a caller of `call`. -/
structure WsState where
  request_id : Nat
  connOpen : Bool
  pending : List (Nat × String)
  log : List (Nat × Settlement)
deriving DecidableEq, Repr

/-- Fresh instance: `request_id = 0`, empty pending map, socket not yet open. -/
def WsState.init : WsState := ⟨0, false, [], []⟩

/-- Events that drive a `WebSocketService`: a client invoking
`call(method, params)`, the `onmessage` handler receiving a response, a
request's 10-second timeout timer firing, the `onclose` handler, and the
`onopen` handler. -/
inductive WsEvent where
  | callMade (method : String)
  | respArrive (r : RpcResponse)
  | fireTimeout (id : Nat)
  | connClose
  | connOpened
deriving DecidableEq, Repr

def pendingMethod? (p : List (Nat × String)) (id : Nat) : Option String :=
  (p.find? (fun e => e.1 = id)).map (·.2)

def removePending (p : List (Nat × String)) (id : Nat) : List (Nat × String) :=
  p.filter (fun e => e.1 ≠ id)

/-- One handler invocation of the `WebSocketService`, from the source:

* `callMade`: `call` throws `'WebSocket not connected'` unless the socket is
  open; otherwise `const id = ++this.request_id`, registers the id in
  `pending_requests`, sends, and arms a 10 s timeout for `id`.
* `respArrive`: `handle_message` with a message carrying an `id` — looks the
  id up in `pending_requests`; if absent the message is discarded, otherwise
  the entry is deleted and the promise settled per `outcomeOfResponse`.
* `fireTimeout id`: the timeout closure — `if (pending_requests.has(id))`
  delete the entry and reject with the timeout error, else do nothing.
* `connClose`: `onclose` — clears the connected flag and
  `reject_pending_requests` rejects and deletes every pending entry.
* `connOpened`: `onopen` — sets the connected flag. -/
def WsState.step (s : WsState) : WsEvent → WsState
  | .callMade method =>
    if s.connOpen then
      { s with
        request_id := s.request_id + 1,
        pending := s.pending ++ [(s.request_id + 1, method)] }
    else s
  | .respArrive r =>
    match pendingMethod? s.pending r.id with
    | some _ =>
      { s with
        pending := removePending s.pending r.id,
        log := s.log ++ [(r.id, outcomeOfResponse r)] }
    | none => s
  | .fireTimeout id =>
    match pendingMethod? s.pending id with
    | some method =>
      { s with
        pending := removePending s.pending id,
        log := s.log ++ [(id, .rejected (timeoutJsError method))] }
    | none => s
  | .connClose =>
    { s with
      connOpen := false,
      pending := [],
      log := s.log ++ s.pending.map (fun e => (e.1, .rejected disconnectedJsError)) }
  | .connOpened => { s with connOpen := true }

/-- Run a trace of events. -/
def WsState.run (s : WsState) (t : List WsEvent) : WsState :=
  t.foldl WsState.step s

def WsState.pendingIds (s : WsState) : List Nat := s.pending.map Prod.fst

def WsState.logIds (s : WsState) : List Nat := s.log.map Prod.fst

/-- Ids allocated by accepted calls along a trace: `call` allocates
`++this.request_id` exactly when the socket is open. -/
def allocIds (s : WsState) : List WsEvent → List Nat
  | [] => []
  | e :: rest =>
    match e with
    | .callMade _ =>
      if s.connOpen then (s.request_id + 1) :: allocIds (s.step e) rest
      else allocIds (s.step e) rest
    | _ => allocIds (s.step e) rest

/-! ## WebSocketService: `connect`

`connect` is modelled separately with the raw sockets made explicit, to
examine its idempotence. `readyState` values follow the WebSocket API. -/

inductive ReadyState where
  | connecting
  | opened
  | closing
  | closed
deriving DecidableEq, Repr

/-- `sockets` lists the `readyState` of every `WebSocket` object created so
far, in creation order; `ws` is the index the service's `this.ws` field
points at (`none` models `this.ws === null`). -/
structure ConnModel where
  sockets : List ReadyState
  ws : Option Nat
deriving DecidableEq, Repr

/-- `this.ws?.readyState` — `none` when `this.ws` is `null`. -/
def ConnModel.currentReady (m : ConnModel) : Option ReadyState :=
  m.ws.bind (fun i => m.sockets.get? i)

/-- `connect()`: `if (this.ws?.readyState === WebSocket.OPEN) return;` then
`this.ws = new WebSocket(environment.ws_url)` — a fresh socket starts in
`CONNECTING` state; the previously referenced socket is not closed. -/
def ConnModel.connect (m : ConnModel) : ConnModel :=
  if m.currentReady = some ReadyState.opened then m
  else
    { sockets := m.sockets ++ [ReadyState.connecting],
      ws := some m.sockets.length }

/-- Number of sockets that are not closed (connecting, open or closing). -/
def ConnModel.liveCount (m : ConnModel) : Nat :=
  (m.sockets.filter (fun st => st ≠ ReadyState.closed)).length

/-! ## TimeSyncService

Times are rationals: JavaScript numbers are binary floating point, but every
quantity here is a millisecond count on which the code performs one division
by two, so exact rational arithmetic coincides with the floats on all
realistic inputs. -/

/-- `handle_pong_message`'s offset computation:
`round_trip_ms = response_ts - request_ts`;
`estimated_latency_ms = round_trip_ms / 2`;
`local_time_at_server = request_ts + estimated_latency_ms`;
`offset = server_time_ms - local_time_at_server`. -/
def handle_pong_offset (request_ts response_ts server_time_ms : ℚ) : ℚ :=
  let round_trip_ms := response_ts - request_ts
  let estimated_latency_ms := round_trip_ms / 2
  let local_time_at_server := request_ts + estimated_latency_ms
  server_time_ms - local_time_at_server

/-- `get_synced_time_ms(): return Date.now() + this._offset_ms()`. -/
def get_synced_time_ms (now offset_ms : ℚ) : ℚ :=
  now + offset_ms

/-- `load_stored_offset`: returns the parsed stored value when present,
`0` when nothing is stored (or storage is unavailable). -/
def load_stored_offset (stored : Option ℚ) : ℚ :=
  match stored with
  | some v => v
  | none => 0

/-- One iteration of the ping loop, as observed by the offset state:
`send_ping` either succeeds — `call('time.ping', ...)` resolves and
`handle_pong_message` runs with the recorded send/receive timestamps and the
reported server time — or fails (timeout, disconnect), in which case the
`catch` block swallows the error. -/
inductive PingEvent where
  | success (request_ts response_ts server_time_ms : ℚ) (ntp_synced : Bool)
  | failed
deriving DecidableEq, Repr

/-- Effect of one ping iteration on the `_offset_ms` signal:
`handle_pong_message` overwrites it on success (`this._offset_ms.set(offset)`),
the `catch` block leaves it untouched on failure. -/
def offsetUpd (off : ℚ) (e : PingEvent) : ℚ :=
  match e with
  | .success s r t _ => handle_pong_offset s r t
  | .failed => off

/-- The `_offset_ms` signal after a session: initialized from
`load_stored_offset()` and overwritten by `handle_pong_message` on every
successful ping; failed pings leave it untouched. -/
def offset_after (stored : Option ℚ) (events : List PingEvent) : ℚ :=
  events.foldl offsetUpd (load_stored_offset stored)

def lastSampleUpd (acc : Option (ℚ × ℚ × ℚ)) (e : PingEvent) :
    Option (ℚ × ℚ × ℚ) :=
  match e with
  | .success s r t _ => some (s, r, t)
  | .failed => acc

/-- The most recent successful sample's timestamps, if any (the spec's
notion of `the most recent successful sample`, used to compare with
`offset_after`). -/
def last_success (events : List PingEvent) : Option (ℚ × ℚ × ℚ) :=
  events.foldl lastSampleUpd none

/-! ## ReactionService -/

/-- `ALLOWED_EMOJIS` from `reaction.service.ts`. -/
def ALLOWED_EMOJIS : List String :=
  ["🎉", "🎊", "🥳", "🍾", "🥂", "✨", "🎆", "🎇", "💃", "🕺", "🪩", "❤️"]

def MIN_SEND_INTERVAL_MS : Int := 200

/-- Environment of one `send_reaction` invocation: `now` is `Date.now()` at
entry, `connected` is `this.ws.is_connected()`, `emoji` the argument, and
`call_ok` whether the `ws.call('reaction.send', ...)` promise resolves
(rather than rejects). -/
structure ReactionEnv where
  now : Int
  connected : Bool
  emoji : String
  call_ok : Bool
deriving DecidableEq, Repr

/-- Observable effects of one `send_reaction` invocation: the boolean the
returned promise resolves with, how many `ws.call` network calls were
issued, the value of `last_sent_ts` at the instant the network call was
issued (`none` if none was), and the value of the `last_sent_ts` field after
the invocation completes. -/
structure ReactionResult where
  returned : Bool
  network_calls : Nat
  ts_at_send : Option Int
  last_sent_ts : Int
deriving DecidableEq, Repr

/-- `send_reaction(emoji)` from the source: rejects on rate limit
(`now - last_sent_ts < MIN_SEND_INTERVAL_MS`), then on `!is_connected()`,
then on `!ALLOWED_EMOJIS.includes(emoji)`; otherwise sets
`this.last_sent_ts = now` and only then awaits
`this.ws.call('reaction.send', { emoji })`, returning `true` on resolve and
`false` in the `catch` block; `last_sent_ts` is not reverted on failure. -/
def send_reaction (last_sent_ts : Int) (env : ReactionEnv) : ReactionResult :=
  if env.now - last_sent_ts < MIN_SEND_INTERVAL_MS then
    ⟨false, 0, none, last_sent_ts⟩
  else if !env.connected then
    ⟨false, 0, none, last_sent_ts⟩
  else if !(ALLOWED_EMOJIS.contains env.emoji) then
    ⟨false, 0, none, last_sent_ts⟩
  else
    ⟨env.call_ok, 1, some env.now, env.now⟩

/-! ## GreetingService -/

def GREETING_MIN_SEND_INTERVAL_MS : Int := 5000

/-- Environment of one `send_greeting` invocation: `now` is `Date.now()` at
entry; `connected` is `this.ws.is_connected()`; `geo_available` is
`'geolocation' in navigator`; `geo_ok` whether `get_current_position()`
resolves; `call_ok` whether `ws.call('greeting.send', ...)` resolves;
`result_success` is the resolved `result.success` flag. -/
structure GreetingEnv where
  now : Int
  connected : Bool
  geo_available : Bool
  geo_ok : Bool
  call_ok : Bool
  result_success : Bool
deriving DecidableEq, Repr

/-- Observable effects of one `send_greeting` invocation. `geo_acquisitions`
counts invocations of `get_current_position()` (successful or not);
`network_calls` counts `ws.call` invocations. -/
structure GreetingResult where
  returned : Bool
  geo_acquisitions : Nat
  network_calls : Nat
  last_sent_ts : Int
deriving DecidableEq, Repr

/-- `send_greeting(template_index)` from the source: rejects on rate limit,
then on `!is_connected()`, then on geolocation unavailability; otherwise
awaits `get_current_position()` (one acquisition). If that rejects, the
`catch` block returns `false` with `last_sent_ts` untouched. On success it
sets `this.last_sent_ts = now` and awaits the network call; a rejected call
lands in `catch` (returning `false`), a resolved one returns
`result.success`. -/
def send_greeting (last_sent_ts : Int) (env : GreetingEnv) : GreetingResult :=
  if env.now - last_sent_ts < GREETING_MIN_SEND_INTERVAL_MS then
    ⟨false, 0, 0, last_sent_ts⟩
  else if !env.connected then
    ⟨false, 0, 0, last_sent_ts⟩
  else if !env.geo_available then
    ⟨false, 0, 0, last_sent_ts⟩
  else if !env.geo_ok then
    ⟨false, 1, 0, last_sent_ts⟩
  else if !env.call_ok then
    ⟨false, 1, 1, env.now⟩
  else
    ⟨env.result_success, 1, 1, env.now⟩

/-! ## Transport invariants -/

/-- Structural invariant of `WsState`: pending and settled ids are nonzero,
bounded by the id counter, without duplicates, and disjoint. -/
structure WsInv (s : WsState) : Prop where
  nodup_pending : s.pendingIds.Nodup
  nodup_log : s.logIds.Nodup
  disjoint : ∀ id ∈ s.pendingIds, id ∉ s.logIds
  pending_bound : ∀ id ∈ s.pendingIds, 0 < id ∧ id ≤ s.request_id
  log_bound : ∀ id ∈ s.logIds, 0 < id ∧ id ≤ s.request_id

theorem wsInv_init : WsInv WsState.init := by
  constructor <;> simp [WsState.init, WsState.pendingIds, WsState.logIds]

theorem pendingIds_mem_of_pendingMethod {p : List (Nat × String)} {id : Nat}
    {m : String} (h : pendingMethod? p id = some m) :
    id ∈ p.map Prod.fst ∧ (id, m) ∈ p := by
  unfold pendingMethod? at h
  rcases Option.map_eq_some'.mp h with ⟨⟨i, mm⟩, hfind, hm⟩
  have hmem := List.mem_of_find?_eq_some hfind
  have hpred := List.find?_some hfind
  simp at hpred hm
  subst hpred; subst hm
  exact ⟨List.mem_map_of_mem Prod.fst hmem, hmem⟩

theorem pendingMethod_eq_none {p : List (Nat × String)} {id : Nat}
    (h : id ∉ p.map Prod.fst) : pendingMethod? p id = none := by
  unfold pendingMethod?
  rw [Option.map_eq_none', List.find?_eq_none]
  rintro ⟨i, m⟩ hmem
  simp only [decide_eq_true_eq]
  rintro rfl
  exact h (List.mem_map_of_mem Prod.fst hmem)

theorem mem_removePending {p : List (Nat × String)} {id a : Nat} :
    a ∈ (removePending p id).map Prod.fst ↔ a ∈ p.map Prod.fst ∧ a ≠ id := by
  unfold removePending
  simp only [List.mem_map, List.mem_filter, decide_eq_true_eq]
  constructor
  · rintro ⟨e, ⟨hmem, hne⟩, rfl⟩
    exact ⟨⟨e, hmem, rfl⟩, hne⟩
  · rintro ⟨⟨e, hmem, rfl⟩, hne⟩
    exact ⟨e, ⟨hmem, hne⟩, rfl⟩

theorem removePending_sublist (p : List (Nat × String)) (id : Nat) :
    List.Sublist ((removePending p id).map Prod.fst) (p.map Prod.fst) :=
  List.Sublist.map Prod.fst (List.filter_sublist p)

theorem map_fst_close (p : List (Nat × String)) :
    (p.map (fun e => (e.1, Settlement.rejected disconnectedJsError))).map Prod.fst
      = p.map Prod.fst := by
  simp

theorem wsInv_step {s : WsState} (hs : WsInv s) (e : WsEvent) :
    WsInv (s.step e) := by
  cases e with
  | callMade method =>
    by_cases hc : s.connOpen
    · have hp : (s.step (.callMade method)).pendingIds
          = s.pendingIds ++ [s.request_id + 1] := by
        simp [WsState.step, hc, WsState.pendingIds]
      have hlg : (s.step (.callMade method)).logIds = s.logIds := by
        simp [WsState.step, hc, WsState.logIds]
      have hr : (s.step (.callMade method)).request_id = s.request_id + 1 := by
        simp [WsState.step, hc]
      refine ⟨?_, ?_, ?_, ?_, ?_⟩
      · rw [hp]
        refine hs.nodup_pending.append (by simp) ?_
        intro a ha hb
        simp only [List.mem_singleton] at hb
        subst hb
        exact absurd (hs.pending_bound _ ha).2 (by omega)
      · rw [hlg]; exact hs.nodup_log
      · intro id hid
        rw [hp] at hid
        rw [hlg]
        rcases List.mem_append.mp hid with h1 | h1
        · exact hs.disjoint id h1
        · simp only [List.mem_singleton] at h1
          subst h1
          intro hlog
          exact absurd (hs.log_bound _ hlog).2 (by omega)
      · intro id hid
        rw [hp] at hid
        rw [hr]
        rcases List.mem_append.mp hid with h1 | h1
        · have := hs.pending_bound id h1; constructor <;> omega
        · simp only [List.mem_singleton] at h1; omega
      · intro id hid
        rw [hlg] at hid
        rw [hr]
        have := hs.log_bound id hid
        constructor <;> omega
    · have hstep : s.step (.callMade method) = s := by simp [WsState.step, hc]
      rw [hstep]; exact hs
  | respArrive r =>
    rcases hm : pendingMethod? s.pending r.id with _ | m
    · have hstep : s.step (.respArrive r) = s := by simp [WsState.step, hm]
      rw [hstep]; exact hs
    · have hrmem := (pendingIds_mem_of_pendingMethod hm).1
      have hp : (s.step (.respArrive r)).pendingIds
          = (removePending s.pending r.id).map Prod.fst := by
        simp [WsState.step, hm, WsState.pendingIds]
      have hl : (s.step (.respArrive r)).logIds = s.logIds ++ [r.id] := by
        simp [WsState.step, hm, WsState.logIds]
      have hr : (s.step (.respArrive r)).request_id = s.request_id := by
        simp [WsState.step, hm]
      refine ⟨?_, ?_, ?_, ?_, ?_⟩
      · rw [hp]
        exact hs.nodup_pending.sublist (removePending_sublist s.pending r.id)
      · rw [hl]
        refine hs.nodup_log.append (by simp) ?_
        intro a ha hb
        simp only [List.mem_singleton] at hb
        subst hb
        exact hs.disjoint _ hrmem ha
      · intro id hid
        rw [hp] at hid
        rw [hl]
        rcases mem_removePending.mp hid with ⟨hmem, hne⟩
        intro hlog
        rcases List.mem_append.mp hlog with h1 | h1
        · exact hs.disjoint id hmem h1
        · simp only [List.mem_singleton] at h1; exact hne h1
      · intro id hid
        rw [hp] at hid
        rw [hr]
        exact hs.pending_bound id (mem_removePending.mp hid).1
      · intro id hid
        rw [hl] at hid
        rw [hr]
        rcases List.mem_append.mp hid with h1 | h1
        · exact hs.log_bound id h1
        · simp only [List.mem_singleton] at h1
          subst h1
          exact hs.pending_bound _ hrmem
  | fireTimeout id₀ =>
    rcases hm : pendingMethod? s.pending id₀ with _ | m
    · have hstep : s.step (.fireTimeout id₀) = s := by simp [WsState.step, hm]
      rw [hstep]; exact hs
    · have hrmem := (pendingIds_mem_of_pendingMethod hm).1
      have hp : (s.step (.fireTimeout id₀)).pendingIds
          = (removePending s.pending id₀).map Prod.fst := by
        simp [WsState.step, hm, WsState.pendingIds]
      have hl : (s.step (.fireTimeout id₀)).logIds = s.logIds ++ [id₀] := by
        simp [WsState.step, hm, WsState.logIds]
      have hr : (s.step (.fireTimeout id₀)).request_id = s.request_id := by
        simp [WsState.step, hm]
      refine ⟨?_, ?_, ?_, ?_, ?_⟩
      · rw [hp]
        exact hs.nodup_pending.sublist (removePending_sublist s.pending id₀)
      · rw [hl]
        refine hs.nodup_log.append (by simp) ?_
        intro a ha hb
        simp only [List.mem_singleton] at hb
        subst hb
        exact hs.disjoint _ hrmem ha
      · intro id hid
        rw [hp] at hid
        rw [hl]
        rcases mem_removePending.mp hid with ⟨hmem, hne⟩
        intro hlog
        rcases List.mem_append.mp hlog with h1 | h1
        · exact hs.disjoint id hmem h1
        · simp only [List.mem_singleton] at h1; exact hne h1
      · intro id hid
        rw [hp] at hid
        rw [hr]
        exact hs.pending_bound id (mem_removePending.mp hid).1
      · intro id hid
        rw [hl] at hid
        rw [hr]
        rcases List.mem_append.mp hid with h1 | h1
        · exact hs.log_bound id h1
        · simp only [List.mem_singleton] at h1
          subst h1
          exact hs.pending_bound _ hrmem
  | connClose =>
    have hl : (s.step .connClose).logIds = s.logIds ++ s.pendingIds := by
      simp only [WsState.step, WsState.logIds, WsState.pendingIds, List.map_append]
      rw [map_fst_close]
    have hp : (s.step .connClose).pendingIds = [] := by
      simp [WsState.step, WsState.pendingIds]
    have hr : (s.step .connClose).request_id = s.request_id := rfl
    refine ⟨?_, ?_, ?_, ?_, ?_⟩
    · rw [hp]; exact List.nodup_nil
    · rw [hl]
      exact hs.nodup_log.append hs.nodup_pending
        (fun a ha hb => hs.disjoint a hb ha)
    · intro id hid
      rw [hp] at hid
      exact absurd hid (List.not_mem_nil id)
    · intro id hid
      rw [hp] at hid
      exact absurd hid (List.not_mem_nil id)
    · intro id hid
      rw [hl] at hid
      rw [hr]
      rcases List.mem_append.mp hid with h1 | h1
      · exact hs.log_bound id h1
      · exact hs.pending_bound id h1
  | connOpened =>
    exact ⟨hs.nodup_pending, hs.nodup_log, hs.disjoint, hs.pending_bound, hs.log_bound⟩

theorem wsInv_run (s : WsState) (hs : WsInv s) (t : List WsEvent) :
    WsInv (s.run t) := by
  induction t generalizing s with
  | nil => exact hs
  | cons e rest ih => exact ih _ (wsInv_step hs e)

theorem pendingMethod_isSome {p : List (Nat × String)} {id : Nat}
    (h : id ∈ p.map Prod.fst) : ∃ m, pendingMethod? p id = some m := by
  rcases List.mem_map.mp h with ⟨e, hmem, hfst⟩
  have : (p.find? (fun x => x.1 = id)).isSome := by
    rw [List.find?_isSome]
    exact ⟨e, hmem, by simp [hfst]⟩
  rcases Option.isSome_iff_exists.mp this with ⟨x, hx⟩
  exact ⟨x.2, by simp [pendingMethod?, hx]⟩

/-- Where log entries come from: each settlement appended by a step is caused
by a matching response, by that id's timeout timer, or by the close handler. -/
theorem log_mem_step (s : WsState) (e : WsEvent) {id : Nat} {st : Settlement}
    (h : (id, st) ∈ (s.step e).log) :
    (id, st) ∈ s.log ∨
    (∃ r, e = .respArrive r ∧ r.id = id ∧ st = outcomeOfResponse r) ∨
    (∃ m, e = .fireTimeout id ∧ st = .rejected (timeoutJsError m)) ∨
    (e = .connClose ∧ st = .rejected disconnectedJsError) := by
  cases e with
  | callMade method =>
    left
    by_cases hc : s.connOpen <;> simpa [WsState.step, hc] using h
  | respArrive r =>
    rcases hm : pendingMethod? s.pending r.id with _ | m
    · left; simpa [WsState.step, hm] using h
    · simp only [WsState.step, hm, List.mem_append, List.mem_singleton,
        Prod.mk.injEq] at h
      rcases h with h | ⟨h1, h2⟩
      · exact Or.inl h
      · right; left
        exact ⟨r, rfl, h1.symm, h2⟩
  | fireTimeout id₀ =>
    rcases hm : pendingMethod? s.pending id₀ with _ | m
    · left; simpa [WsState.step, hm] using h
    · simp only [WsState.step, hm, List.mem_append, List.mem_singleton,
        Prod.mk.injEq] at h
      rcases h with h | ⟨h1, h2⟩
      · exact Or.inl h
      · right; right; left
        exact ⟨m, by rw [h1], h2⟩
  | connClose =>
    simp only [WsState.step, List.mem_append, List.mem_map, Prod.mk.injEq] at h
    rcases h with h | ⟨e, _, h1, h2⟩
    · exact Or.inl h
    · right; right; right
      exact ⟨rfl, h2.symm⟩
  | connOpened =>
    left; exact h

theorem log_mem_run (s : WsState) (t : List WsEvent) {id : Nat}
    {st : Settlement} (h : (id, st) ∈ (s.run t).log) :
    (id, st) ∈ s.log ∨
    (∃ r, WsEvent.respArrive r ∈ t ∧ r.id = id ∧ st = outcomeOfResponse r) ∨
    (∃ m, WsEvent.fireTimeout id ∈ t ∧ st = .rejected (timeoutJsError m)) ∨
    (WsEvent.connClose ∈ t ∧ st = .rejected disconnectedJsError) := by
  induction t generalizing s with
  | nil => exact Or.inl h
  | cons e rest ih =>
    rcases ih (s.step e) h with h1 | h1 | h1 | h1
    · rcases log_mem_step s e h1 with h2 | ⟨r, he, h3, h4⟩ | ⟨m, he, h3⟩ | ⟨he, h3⟩
      · exact Or.inl h2
      · exact Or.inr (Or.inl ⟨r, by rw [he]; exact List.mem_cons_self _ _, h3, h4⟩)
      · exact Or.inr (Or.inr (Or.inl ⟨m, by rw [he]; exact List.mem_cons_self _ _, h3⟩))
      · exact Or.inr (Or.inr (Or.inr ⟨by rw [he]; exact List.mem_cons_self _ _, h3⟩))
    · rcases h1 with ⟨r, hmem, h3, h4⟩
      exact Or.inr (Or.inl ⟨r, List.mem_cons_of_mem e hmem, h3, h4⟩)
    · rcases h1 with ⟨m, hmem, h3⟩
      exact Or.inr (Or.inr (Or.inl ⟨m, List.mem_cons_of_mem e hmem, h3⟩))
    · exact Or.inr (Or.inr (Or.inr ⟨List.mem_cons_of_mem e h1.1, h1.2⟩))

/-! ## Allocation monotonicity -/

theorem request_id_le_step (s : WsState) (e : WsEvent) :
    s.request_id ≤ (s.step e).request_id := by
  cases e with
  | callMade method =>
    by_cases hc : s.connOpen <;> simp [WsState.step, hc]
  | respArrive r =>
    rcases hm : pendingMethod? s.pending r.id with _ | m <;> simp [WsState.step, hm]
  | fireTimeout id₀ =>
    rcases hm : pendingMethod? s.pending id₀ with _ | m <;> simp [WsState.step, hm]
  | connClose => exact Nat.le_refl _
  | connOpened => exact Nat.le_refl _

theorem allocIds_lt (s : WsState) (t : List WsEvent) :
    ∀ id ∈ allocIds s t, s.request_id < id := by
  induction t generalizing s with
  | nil => intro id h; exact absurd h (List.not_mem_nil id)
  | cons e rest ih =>
    intro id h
    cases e with
    | callMade method =>
      by_cases hc : s.connOpen
      · rw [allocIds, if_pos hc] at h
        have hr : (s.step (.callMade method)).request_id = s.request_id + 1 := by
          simp [WsState.step, hc]
        rcases List.mem_cons.mp h with h1 | h1
        · omega
        · have := ih (s.step (.callMade method)) id h1
          omega
      · rw [allocIds, if_neg hc] at h
        have hr : (s.step (.callMade method)).request_id = s.request_id := by
          simp [WsState.step, hc]
        have := ih (s.step (.callMade method)) id h
        omega
    | respArrive r =>
      have := ih (s.step (.respArrive r)) id h
      have := request_id_le_step s (.respArrive r)
      omega
    | fireTimeout id₀ =>
      have := ih (s.step (.fireTimeout id₀)) id h
      have := request_id_le_step s (.fireTimeout id₀)
      omega
    | connClose =>
      have := ih (s.step .connClose) id h
      have := request_id_le_step s .connClose
      omega
    | connOpened =>
      have := ih (s.step .connOpened) id h
      have := request_id_le_step s .connOpened
      omega

theorem allocIds_sorted (s : WsState) (t : List WsEvent) :
    List.Sorted (· < ·) (allocIds s t) := by
  induction t generalizing s with
  | nil => exact List.sorted_nil
  | cons e rest ih =>
    cases e with
    | callMade method =>
      by_cases hc : s.connOpen
      · rw [allocIds, if_pos hc]
        refine List.sorted_cons.mpr ⟨?_, ih (s.step (.callMade method))⟩
        intro b hb
        have := allocIds_lt (s.step (.callMade method)) rest b hb
        have hr : (s.step (.callMade method)).request_id = s.request_id + 1 := by
          simp [WsState.step, hc]
        omega
      · rw [allocIds, if_neg hc]
        exact ih (s.step (.callMade method))
    | respArrive r => exact ih (s.step (.respArrive r))
    | fireTimeout id₀ => exact ih (s.step (.fireTimeout id₀))
    | connClose => exact ih (s.step .connClose)
    | connOpened => exact ih (s.step .connOpened)

/-! ## Offset fold lemmas -/

theorem lastSampleUpd_foldl (events : List PingEvent)
    (acc : Option (ℚ × ℚ × ℚ)) :
    events.foldl lastSampleUpd acc
      = match events.foldl lastSampleUpd none with
        | some x => some x
        | none => acc := by
  induction events generalizing acc with
  | nil => rfl
  | cons e rest ih =>
    cases e with
    | success s r t n =>
      rw [List.foldl_cons, List.foldl_cons]
      rw [show lastSampleUpd acc (.success s r t n) = some (s, r, t) from rfl]
      rw [show lastSampleUpd none (.success s r t n) = some (s, r, t) from rfl]
      rw [ih (some (s, r, t))]
      rcases hres : rest.foldl lastSampleUpd none with _ | x <;> simp [hres]
    | failed =>
      rw [List.foldl_cons, List.foldl_cons]
      rw [show lastSampleUpd acc .failed = acc from rfl]
      rw [show lastSampleUpd none .failed = none from rfl]
      exact ih acc

theorem offsetUpd_foldl (events : List PingEvent) (off : ℚ) :
    events.foldl offsetUpd off
      = match events.foldl lastSampleUpd none with
        | some (s, r, t) => handle_pong_offset s r t
        | none => off := by
  induction events generalizing off with
  | nil => rfl
  | cons e rest ih =>
    cases e with
    | success s r t n =>
      rw [List.foldl_cons, List.foldl_cons]
      rw [show offsetUpd off (.success s r t n) = handle_pong_offset s r t from rfl]
      rw [show lastSampleUpd none (.success s r t n) = some (s, r, t) from rfl]
      rw [ih (handle_pong_offset s r t), lastSampleUpd_foldl rest (some (s, r, t))]
      rcases rest.foldl lastSampleUpd none with _ | ⟨s', r', t'⟩ <;> rfl
    | failed =>
      rw [List.foldl_cons, List.foldl_cons]
      rw [show offsetUpd off .failed = off from rfl]
      rw [show lastSampleUpd none .failed = none from rfl]
      exact ih off

theorem logIds_step_close (s : WsState) :
    (s.step WsEvent.connClose).logIds = s.logIds ++ s.pendingIds := by
  simp only [WsState.step, WsState.logIds, WsState.pendingIds, List.map_append]
  rw [map_fst_close]

theorem count_eq_one_of_nodup_mem {l : List Nat} {a : Nat} (hn : l.Nodup)
    (hm : a ∈ l) : l.count a = 1 :=
  Nat.le_antisymm (List.nodup_iff_count_le_one.mp hn a) (List.count_pos_iff.mpr hm)

/-! ## Claim theorems -/

/-- C1: along any handler trace of the `WebSocketService`, every request id
is settled at most once; every settlement delivered to a caller is the one
determined by the response whose id matches the request id (success exactly
when the response carries no error), by the request's own 10-second timeout,
or by disconnection; and a request still pending when its timeout timer
fires settles exactly then — so each accepted call settles exactly once,
independently of response arrival order. -/
theorem call_settles_once_with_matching_outcome (t : List WsEvent) :
    (∀ id : Nat, (WsState.init.run t).logIds.count id ≤ 1) ∧
    (∀ id st, (id, st) ∈ (WsState.init.run t).log →
      (∃ r, WsEvent.respArrive r ∈ t ∧ r.id = id ∧ st = outcomeOfResponse r) ∨
      (∃ m, WsEvent.fireTimeout id ∈ t ∧ st = Settlement.rejected (timeoutJsError m)) ∨
      (WsEvent.connClose ∈ t ∧ st = Settlement.rejected disconnectedJsError)) ∧
    (∀ id, id ∈ (WsState.init.run t).pendingIds →
      ((WsState.init.run t).step (WsEvent.fireTimeout id)).logIds.count id = 1) := by
  have hinv := wsInv_run WsState.init wsInv_init t
  refine ⟨?_, ?_, ?_⟩
  · intro id
    exact List.nodup_iff_count_le_one.mp hinv.nodup_log id
  · intro id st hmem
    rcases log_mem_run WsState.init t hmem with h | h
    · exact absurd h (List.not_mem_nil _)
    · exact h
  · intro id hid
    rcases pendingMethod_isSome hid with ⟨m, hm⟩
    have hl : ((WsState.init.run t).step (WsEvent.fireTimeout id)).logIds
        = (WsState.init.run t).logIds ++ [id] := by
      simp [WsState.step, hm, WsState.logIds]
    rw [hl, List.count_append]
    have hnot : id ∉ (WsState.init.run t).logIds := hinv.disjoint id hid
    rw [List.count_eq_zero.mpr hnot]
    simp

def c1_trace : List WsEvent :=
  [WsEvent.connOpened, WsEvent.callMade "time.ping", WsEvent.callMade "reaction.send",
   WsEvent.respArrive ⟨2, none, "ok2"⟩, WsEvent.respArrive ⟨1, none, "pong"⟩]

theorem call_settles_once_with_matching_outcome_witness :
    (∃ r, WsEvent.respArrive r ∈ c1_trace ∧ r.id = 1
        ∧ Settlement.resolved "pong" = outcomeOfResponse r) ∨
    (∃ m, WsEvent.fireTimeout 1 ∈ c1_trace
        ∧ Settlement.resolved "pong" = Settlement.rejected (timeoutJsError m)) ∨
    (WsEvent.connClose ∈ c1_trace
        ∧ Settlement.resolved "pong" = Settlement.rejected disconnectedJsError) :=
  (call_settles_once_with_matching_outcome c1_trace).2.1 1
    (Settlement.resolved "pong") (by decide)

/-- C3: closing the connection settles every outstanding pending request
with the disconnected failure, empties the pending map, and each such id is
settled exactly once over the whole history. -/
theorem disconnect_settles_all_pending (t : List WsEvent) :
    ((WsState.init.run t).step WsEvent.connClose).pending = [] ∧
    ((WsState.init.run t).step WsEvent.connClose).log
      = (WsState.init.run t).log
        ++ (WsState.init.run t).pending.map
             (fun e => (e.1, Settlement.rejected disconnectedJsError)) ∧
    (∀ id, id ∈ (WsState.init.run t).pendingIds →
      ((WsState.init.run t).step WsEvent.connClose).logIds.count id = 1) := by
  have hinv := wsInv_run WsState.init wsInv_init t
  refine ⟨rfl, rfl, ?_⟩
  intro id hid
  rw [logIds_step_close, List.count_append]
  rw [List.count_eq_zero.mpr (hinv.disjoint id hid)]
  rw [count_eq_one_of_nodup_mem hinv.nodup_pending hid]

def c3_trace : List WsEvent :=
  [WsEvent.connOpened, WsEvent.callMade "greeting.send", WsEvent.callMade "time.ping",
   WsEvent.respArrive ⟨2, none, "pong"⟩]

theorem disconnect_settles_all_pending_witness :
    ((WsState.init.run c3_trace).step WsEvent.connClose).logIds.count 1 = 1 :=
  (disconnect_settles_all_pending c3_trace).2.2 1 (by decide)

/-- C10: request ids allocated by `call` over the whole lifetime of the
service are strictly increasing and positive, across arbitrary disconnects
and reconnects, and the id counter never decreases at any step. -/
theorem request_ids_strictly_increasing (t : List WsEvent) :
    List.Sorted (· < ·) (allocIds WsState.init t) ∧
    (∀ id ∈ allocIds WsState.init t, 0 < id) ∧
    (∀ (s : WsState) (e : WsEvent), s.request_id ≤ (s.step e).request_id) := by
  refine ⟨allocIds_sorted WsState.init t, ?_, request_id_le_step⟩
  intro id h
  have := allocIds_lt WsState.init t id h
  omega

theorem request_ids_strictly_increasing_witness :
    0 < 2 ∧ (2 : Nat) ∈ allocIds WsState.init
      [WsEvent.connOpened, WsEvent.callMade "a", WsEvent.connClose,
       WsEvent.connOpened, WsEvent.callMade "b"] :=
  ⟨(request_ids_strictly_increasing
      [WsEvent.connOpened, WsEvent.callMade "a", WsEvent.connClose,
       WsEvent.connOpened, WsEvent.callMade "b"]).2.1 2 (by decide),
   by decide⟩

/-- C2: the offset computed by `handle_pong_message` for send time `s`,
receive time `r` and server time `t` equals `t - (s + (r - s) / 2)`; at
`s = 1000`, `r = 1200`, `t = 5000` it is `3900`, and `get_synced_time` at
local time `1300` then returns `5200`. -/
theorem offset_formula_and_roundtrip_example :
    (∀ s r t : ℚ, handle_pong_offset s r t = t - (s + (r - s) / 2)) ∧
    handle_pong_offset 1000 1200 5000 = 3900 ∧
    get_synced_time_ms 1300 (handle_pong_offset 1000 1200 5000) = 5200 := by
  refine ⟨?_, ?_, ?_⟩
  · intro s r t
    unfold handle_pong_offset
    ring
  · norm_num [handle_pong_offset]
  · norm_num [get_synced_time_ms, handle_pong_offset]

/-- C4: after any session, `get_synced_time` equals the local time plus the
offset of the most recent successful ping sample, falling back to the
persisted offset when no sample succeeded, and to zero when nothing is
stored; failed pings never change the offset. -/
theorem synced_time_tracks_latest_sample (stored : Option ℚ)
    (events : List PingEvent) (now : ℚ) :
    get_synced_time_ms now (offset_after stored events)
      = now + (match last_success events with
               | some (s, r, t) => handle_pong_offset s r t
               | none => load_stored_offset stored) ∧
    load_stored_offset none = 0 ∧
    (∀ off : ℚ, offsetUpd off PingEvent.failed = off) := by
  refine ⟨?_, rfl, fun off => rfl⟩
  unfold get_synced_time_ms offset_after last_success
  rw [offsetUpd_foldl]

/-- C7 counterexample: a `connect()` issued while the previous socket is
still in `CONNECTING` state is not a no-op — it creates a second socket and
abandons the first without closing it, leaving two live (non-closed)
sockets. -/
theorem connect_not_noop_while_opening :
    (ConnModel.connect ⟨[], none⟩).currentReady = some ReadyState.connecting ∧
    ConnModel.connect (ConnModel.connect ⟨[], none⟩) ≠ ConnModel.connect ⟨[], none⟩ ∧
    (ConnModel.connect (ConnModel.connect ⟨[], none⟩)).liveCount = 2 := by
  decide

/-- C7 amended: `connect()` is a no-op exactly in the already-open case —
the guard tests only `readyState === WebSocket.OPEN`, not `CONNECTING`. -/
theorem connect_noop_when_open (m : ConnModel)
    (h : m.currentReady = some ReadyState.opened) :
    m.connect = m := by
  unfold ConnModel.connect
  rw [h]
  rfl

theorem connect_noop_when_open_witness :
    ConnModel.connect ⟨[ReadyState.opened], some 0⟩ = ⟨[ReadyState.opened], some 0⟩ :=
  connect_noop_when_open ⟨[ReadyState.opened], some 0⟩ (by decide)

/-- C8 counterexample: two error responses that differ only in the error
code produce the same settlement, so the caller-observed rejection
(`new Error(message.error.message)`) cannot carry the remote error's code;
the code is dropped, refuting that both code and message pass through. -/
theorem remote_error_code_not_passed_through :
    outcomeOfResponse ⟨1, some ⟨-32000, "boom"⟩, ""⟩
      = outcomeOfResponse ⟨1, some ⟨42, "boom"⟩, ""⟩ ∧
    outcomeOfResponse ⟨1, some ⟨-32000, "boom"⟩, ""⟩
      = Settlement.rejected ⟨"boom"⟩ := by
  decide

/-- C8 amended: when the peer answers a pending call with an error object,
the caller's promise is rejected with an `Error` whose message is exactly
the remote error's message; the error's code (and data) are not included. -/
theorem remote_error_message_passed_verbatim (s : WsState) (r : RpcResponse)
    (e : RpcError) (h1 : r.error = some e) (h2 : r.id ∈ s.pendingIds) :
    (s.step (WsEvent.respArrive r)).log
      = s.log ++ [(r.id, Settlement.rejected ⟨e.message⟩)] := by
  rcases pendingMethod_isSome h2 with ⟨m, hm⟩
  simp [WsState.step, hm, outcomeOfResponse, h1]

theorem remote_error_message_passed_verbatim_witness :
    (WsState.step ⟨1, true, [(1, "reaction.send")], []⟩
        (WsEvent.respArrive ⟨1, some ⟨-32000, "rate limited"⟩, ""⟩)).log
      = [] ++ [(1, Settlement.rejected ⟨"rate limited"⟩)] :=
  remote_error_message_passed_verbatim ⟨1, true, [(1, "reaction.send")], []⟩
    ⟨1, some ⟨-32000, "rate limited"⟩, ""⟩ ⟨-32000, "rate limited"⟩ rfl (by decide)

/-- C5: `send_reaction` is rejected locally — returning `false` with zero
network calls and the timestamp untouched — for a disallowed emoji
(regardless of timing), within 200 ms of the last accepted send, or without
an open connection; two consecutive calls within 200 ms make at most one
network call, and exactly one when the first is accepted with a valid
emoji. -/
theorem send_reaction_local_rejection_and_rate_limit :
    (∀ (ls : Int) (env : ReactionEnv), env.emoji ∉ ALLOWED_EMOJIS →
      send_reaction ls env = ⟨false, 0, none, ls⟩) ∧
    (∀ (ls : Int) (env : ReactionEnv), env.now - ls < MIN_SEND_INTERVAL_MS →
      send_reaction ls env = ⟨false, 0, none, ls⟩) ∧
    (∀ (ls : Int) (env : ReactionEnv), env.connected = false →
      send_reaction ls env = ⟨false, 0, none, ls⟩) ∧
    (∀ (ls : Int) (env1 env2 : ReactionEnv),
      env2.now - env1.now < MIN_SEND_INTERVAL_MS →
      (send_reaction ls env1).network_calls
        + (send_reaction (send_reaction ls env1).last_sent_ts env2).network_calls ≤ 1) ∧
    (∀ (ls : Int) (env1 env2 : ReactionEnv),
      MIN_SEND_INTERVAL_MS ≤ env1.now - ls → env1.connected = true →
      env1.emoji ∈ ALLOWED_EMOJIS → env2.now - env1.now < MIN_SEND_INTERVAL_MS →
      (send_reaction ls env1).network_calls
        + (send_reaction (send_reaction ls env1).last_sent_ts env2).network_calls = 1) := by
  refine ⟨?_, ?_, ?_, ?_, ?_⟩
  · intro ls env h
    unfold send_reaction
    have hc : ALLOWED_EMOJIS.contains env.emoji = false := by
      simpa using h
    split_ifs with h1 h2 <;> simp_all
  · intro ls env h
    unfold send_reaction
    rw [if_pos h]
  · intro ls env h
    unfold send_reaction
    split_ifs with h1 <;> simp_all
  · intro ls env1 env2 h
    by_cases hn1 : (send_reaction ls env1).network_calls = 0
    · have hn2 : (send_reaction (send_reaction ls env1).last_sent_ts env2).network_calls ≤ 1 := by
        unfold send_reaction
        split_ifs <;> simp
      omega
    · have hts : (send_reaction ls env1).last_sent_ts = env1.now := by
        unfold send_reaction at hn1 ⊢
        split_ifs at hn1 ⊢ <;> simp_all
      have hn1' : (send_reaction ls env1).network_calls = 1 := by
        unfold send_reaction at hn1 ⊢
        split_ifs at hn1 ⊢ <;> simp_all
      have hn2 : (send_reaction (send_reaction ls env1).last_sent_ts env2).network_calls = 0 := by
        rw [hts]
        unfold send_reaction
        rw [if_pos h]
      omega
  · intro ls env1 env2 h1 h2 h3 h4
    have hc : ALLOWED_EMOJIS.contains env1.emoji = true := by
      simpa using h3
    have hr1 : send_reaction ls env1 = ⟨env1.call_ok, 1, some env1.now, env1.now⟩ := by
      unfold send_reaction
      rw [if_neg (by omega), h2, hc]
      rfl
    rw [hr1]
    have hr2 : send_reaction env1.now env2 = ⟨false, 0, none, env1.now⟩ := by
      unfold send_reaction
      rw [if_pos h4]
    simp [hr2]

theorem send_reaction_local_rejection_and_rate_limit_witness :
    (send_reaction 0 ⟨1000, true, "🎉", true⟩).network_calls
      + (send_reaction (send_reaction 0 ⟨1000, true, "🎉", true⟩).last_sent_ts
          ⟨1100, true, "🎉", true⟩).network_calls = 1 :=
  send_reaction_local_rejection_and_rate_limit.2.2.2.2 0
    ⟨1000, true, "🎉", true⟩ ⟨1100, true, "🎉", true⟩
    (by decide) rfl (by decide) (by decide)

/-- C9 counterexample: with the guards passing and the network call failing,
`send_reaction` still has `last_sent_ts = now` at the instant the call is
issued and after the call fails — refuting that the timestamp is updated
only after the call resolves successfully. -/
theorem reaction_timestamp_advanced_despite_failure :
    (send_reaction 0 ⟨1000, true, "🎉", false⟩).returned = false ∧
    (send_reaction 0 ⟨1000, true, "🎉", false⟩).ts_at_send = some 1000 ∧
    (send_reaction 0 ⟨1000, true, "🎉", false⟩).last_sent_ts = 1000 := by
  decide

/-- C9 amended: on every accepted send, `last_sent_ts` is set to the entry
time `now` before the network call is issued and keeps that value
whether the call succeeds or fails. -/
theorem reaction_timestamp_set_before_call (ls : Int) (env : ReactionEnv)
    (h1 : MIN_SEND_INTERVAL_MS ≤ env.now - ls) (h2 : env.connected = true)
    (h3 : env.emoji ∈ ALLOWED_EMOJIS) :
    (send_reaction ls env).ts_at_send = some env.now ∧
    (send_reaction ls env).last_sent_ts = env.now := by
  have hc : ALLOWED_EMOJIS.contains env.emoji = true := by
    simpa using h3
  unfold send_reaction
  rw [if_neg (by omega), h2, hc]
  exact ⟨rfl, rfl⟩

theorem reaction_timestamp_set_before_call_witness :
    (send_reaction 0 ⟨1000, true, "🎉", false⟩).ts_at_send = some 1000 ∧
    (send_reaction 0 ⟨1000, true, "🎉", false⟩).last_sent_ts = 1000 :=
  reaction_timestamp_set_before_call 0 ⟨1000, true, "🎉", false⟩
    (by decide) rfl (by decide)

/-- C6 counterexample: if the first `send_greeting`'s geolocation
acquisition fails, the rate-limit timestamp is not advanced, so a second
call 2000 ms later performs a second acquisition — two `send_greeting`
calls within 5000 ms performed two geolocation acquisitions, refuting
`exactly one`. -/
theorem greeting_two_acquisitions_within_interval :
    (12000 : Int) - 10000 < GREETING_MIN_SEND_INTERVAL_MS ∧
    (send_greeting 0 ⟨10000, true, true, false, false, false⟩).geo_acquisitions
      + (send_greeting (send_greeting 0 ⟨10000, true, true, false, false, false⟩).last_sent_ts
          ⟨12000, true, true, true, true, true⟩).geo_acquisitions = 2 := by
  decide

/-- C6 amended: `send_greeting` is rejected locally (returning `false`, no
acquisition, no network call) within 5000 ms of the last accepted send,
without an open connection, or without geolocation; two calls within
5000 ms make at most one network call, and when the first call is accepted
and its geolocation acquisition succeeds, the pair performs exactly one
acquisition and exactly one network call. A first call whose acquisition
fails does not advance the rate limit, so the second call may acquire
again. -/
theorem send_greeting_rate_limit_and_single_acquisition :
    (∀ (ls : Int) (env : GreetingEnv),
      env.now - ls < GREETING_MIN_SEND_INTERVAL_MS →
      send_greeting ls env = ⟨false, 0, 0, ls⟩) ∧
    (∀ (ls : Int) (env : GreetingEnv), env.connected = false →
      send_greeting ls env = ⟨false, 0, 0, ls⟩) ∧
    (∀ (ls : Int) (env : GreetingEnv), env.geo_available = false →
      send_greeting ls env = ⟨false, 0, 0, ls⟩) ∧
    (∀ (ls : Int) (env1 env2 : GreetingEnv),
      env2.now - env1.now < GREETING_MIN_SEND_INTERVAL_MS →
      (send_greeting ls env1).network_calls
        + (send_greeting (send_greeting ls env1).last_sent_ts env2).network_calls ≤ 1) ∧
    (∀ (ls : Int) (env1 env2 : GreetingEnv),
      GREETING_MIN_SEND_INTERVAL_MS ≤ env1.now - ls → env1.connected = true →
      env1.geo_available = true → env1.geo_ok = true →
      env2.now - env1.now < GREETING_MIN_SEND_INTERVAL_MS →
      (send_greeting ls env1).geo_acquisitions
        + (send_greeting (send_greeting ls env1).last_sent_ts env2).geo_acquisitions = 1 ∧
      (send_greeting ls env1).network_calls
        + (send_greeting (send_greeting ls env1).last_sent_ts env2).network_calls = 1) := by
  refine ⟨?_, ?_, ?_, ?_, ?_⟩
  · intro ls env h
    unfold send_greeting
    rw [if_pos h]
  · intro ls env h
    unfold send_greeting
    split_ifs with h1 <;> simp_all
  · intro ls env h
    unfold send_greeting
    split_ifs with h1 h2 <;> simp_all
  · intro ls env1 env2 h
    by_cases hn1 : (send_greeting ls env1).network_calls = 0
    · have hn2 : (send_greeting (send_greeting ls env1).last_sent_ts env2).network_calls ≤ 1 := by
        unfold send_greeting
        split_ifs <;> simp
      omega
    · have hts : (send_greeting ls env1).last_sent_ts = env1.now := by
        unfold send_greeting at hn1 ⊢
        split_ifs at hn1 ⊢ <;> simp_all
      have hn1' : (send_greeting ls env1).network_calls = 1 := by
        unfold send_greeting at hn1 ⊢
        split_ifs at hn1 ⊢ <;> simp_all
      have hn2 : (send_greeting (send_greeting ls env1).last_sent_ts env2).network_calls = 0 := by
        rw [hts]
        unfold send_greeting
        rw [if_pos h]
      omega
  · intro ls env1 env2 h1 h2 h3 h4 h5
    have hr1 : (send_greeting ls env1).geo_acquisitions = 1 ∧
        (send_greeting ls env1).network_calls = 1 ∧
        (send_greeting ls env1).last_sent_ts = env1.now := by
      unfold send_greeting
      rw [if_neg (by omega), h2, h3, h4]
      by_cases hck : env1.call_ok <;> simp [hck]
    have hr2 : send_greeting env1.now env2 = ⟨false, 0, 0, env1.now⟩ := by
      unfold send_greeting
      rw [if_pos h5]
    rw [hr1.2.2, hr2]
    exact ⟨by rw [hr1.1]; rfl, by rw [hr1.2.1]; rfl⟩

theorem send_greeting_rate_limit_and_single_acquisition_witness :
    (send_greeting 0 ⟨10000, true, true, true, true, true⟩).geo_acquisitions
      + (send_greeting (send_greeting 0 ⟨10000, true, true, true, true, true⟩).last_sent_ts
          ⟨12000, true, true, true, true, true⟩).geo_acquisitions = 1 ∧
    (send_greeting 0 ⟨10000, true, true, true, true, true⟩).network_calls
      + (send_greeting (send_greeting 0 ⟨10000, true, true, true, true, true⟩).last_sent_ts
          ⟨12000, true, true, true, true, true⟩).network_calls = 1 :=
  send_greeting_rate_limit_and_single_acquisition.2.2.2.2 0
    ⟨10000, true, true, true, true, true⟩ ⟨12000, true, true, true, true, true⟩
    (by decide) rfl rfl rfl (by decide)

end Nye
